import Mathlib

/-!
# Verification of the labeled-array workflow in `scientific-computing/xarray.ipynb`

The repository is a tutorial notebook whose every operation is a call into an
external labeled-array library, applied to sample sea-surface-temperature
(SST) datasets that are not part of the repository.  Following the
specification's data model (labeled arrays = numeric buffer + named
dimensions + one coordinate vector per dimension + a metadata mapping), we
give a shallow embedding of exactly the operations the notebook invokes:
construction, positional and label-based indexing, reductions by named
dimension, the spherical-area weighted mean, group-by calendar month,
annual resampling, and centered rolling means.  Values are rationals; a
missing value (NaN over land, or an empty aggregation bucket) is `none`.
-/

/-- Modelled from the spec: a timestamp label on the `time` dimension
("numbers, timestamps, or strings" may serve as coordinate labels); the
notebook's datasets carry monthly timestamps such as 1960-06-15. -/
structure Date where
  year : Nat
  month : Nat
  day : Nat
deriving DecidableEq, Repr

/-- Modelled from the spec: mean reduction over a vector of possibly
missing values.  Missing entries are skipped (the library's default
`skipna` behaviour) and an all-missing vector reduces to missing. -/
def omean (l : List (Option ℚ)) : Option ℚ :=
  let xs := l.filterMap id
  if xs.isEmpty then none else some (xs.sum / xs.length)

/-- Modelled from the spec: sum reduction over a vector of possibly
missing values; missing entries contribute nothing. -/
def osum (l : List (Option ℚ)) : ℚ :=
  (l.filterMap id).sum

/-- Modelled from the spec: a 1-D labeled array, as built in the notebook by
`xr.DataArray(da_f, dims=['x'], coords={'x': x})` — a value buffer, the
coordinate vector of its single dimension `x`, and a metadata mapping. -/
structure DataArray1 where
  xs : List ℚ
  values : List ℚ
  attrs : List (String × String)
deriving DecidableEq, Repr

/-- Invariant from the spec: the coordinate vector's length equals the
dimension's size. -/
def DataArray1.WF (f : DataArray1) : Prop :=
  f.xs.length = f.values.length

instance (f : DataArray1) : Decidable f.WF := by
  unfold DataArray1.WF; infer_instance

/-- Position-based indexing `f[i]` on the 1-D array. -/
def DataArray1.getPos (f : DataArray1) (i : Nat) : Option ℚ :=
  f.values.get? i

/-- Label-based selection `f.sel(x=v)`: look the label up in the coordinate
vector of `x` and return the value at the first matching position. -/
def DataArray1.selX (f : DataArray1) (v : ℚ) : Option ℚ :=
  match f.xs.findIdx? (fun c => c == v) with
  | some i => f.values.get? i
  | none => none

/-- The (coordinate, value) pairs of a 1-D array, in axis order. -/
def DataArray1.items (f : DataArray1) : List (ℚ × ℚ) :=
  f.xs.zip f.values

/-- Positional slice `f[a:b]` (python half-open convention), returned as
(coordinate, value) pairs: the coordinates come along for the ride. -/
def DataArray1.iselSlice (f : DataArray1) (a b : Nat) : List (ℚ × ℚ) :=
  (f.items.drop a).take (b - a)

/-- Label slice `f.sel(x=slice(lo, hi))`: on a sorted coordinate this keeps
every position whose label lies in the range, inclusive at both ends. -/
def DataArray1.selSlice (f : DataArray1) (lo hi : ℚ) : List (ℚ × ℚ) :=
  f.items.filter (fun p => decide (lo ≤ p.1) && decide (p.1 ≤ hi))

/-- Elementwise product of two 1-D arrays with identical coordinates
(Exercise 2 multiplies `f` and `g`, which share the coordinate `x`);
alignment of differing coordinates is owned by the library and never
exercised in the notebook, so the model requires equal coordinates. -/
def DataArray1.mul (f g : DataArray1) : Option DataArray1 :=
  if f.xs == g.xs then
    some ⟨f.xs, f.values.zipWith (· * ·) g.values, []⟩
  else none

/-- `f ** 2 + 1` from Exercise 1: elementwise arithmetic with a scalar. -/
def DataArray1.sqAddOne (f : DataArray1) : DataArray1 :=
  ⟨f.xs, f.values.map (fun v => v * v + 1), []⟩

/-- A cell of a 2-D (lat, lon) plane stored as nested lists; out-of-range
access and a stored NaN both read back as `none`. -/
def cell2 (p : List (List (Option ℚ))) (i j : Nat) : Option ℚ :=
  (((p.get? i).getD []).get? j).join

/-- Modelled from the spec: the 3-D labeled SST variable of the loaded
dataset, with dimensions `(time, lat, lon)` in that fixed order, one
coordinate vector per dimension, and a metadata mapping.  `data[t][i][j]`
is the value at time `t`, latitude `i`, longitude `j`; `none` is a missing
value (NaN over land). -/
structure SstField where
  times : List Date
  lats : List ℚ
  lons : List ℚ
  data : List (List (List (Option ℚ)))
  attrs : List (String × String)
deriving DecidableEq, Repr

/-- Invariant from the spec, for the 3-D variable: along every dimension the
coordinate vector's length equals that dimension's size. -/
def SstField.WF (f : SstField) : Prop :=
  f.data.length = f.times.length ∧
  ∀ p ∈ f.data, p.length = f.lats.length ∧ ∀ r ∈ p, r.length = f.lons.length

instance (f : SstField) : Decidable f.WF := by
  unfold SstField.WF; infer_instance

/-- Modelled from the spec: a 2-D (lat, lon) labeled array, the result of
selecting one date or reducing away the time dimension. -/
structure Field2 where
  lats : List ℚ
  lons : List ℚ
  data : List (List (Option ℚ))
  attrs : List (String × String)
deriving DecidableEq, Repr

/-- Coordinate-length invariant for a 2-D (lat, lon) array. -/
def Field2.WF (g : Field2) : Prop :=
  g.data.length = g.lats.length ∧ ∀ r ∈ g.data, r.length = g.lons.length

instance (g : Field2) : Decidable g.WF := by
  unfold Field2.WF; infer_instance

/-- Modelled from the spec: a single-point time series (the notebook's
`sst_ts = ds_all.sst.sel(lon=300, lat=10)`), a 1-D array over `time`. -/
structure Series where
  times : List Date
  values : List (Option ℚ)
  attrs : List (String × String)
deriving DecidableEq, Repr

/-- Coordinate-length invariant for a time series. -/
def Series.WF (s : Series) : Prop :=
  s.times.length = s.values.length

instance (s : Series) : Decidable s.WF := by
  unfold Series.WF; infer_instance

/-- Modelled from the spec: the result of grouping by calendar month —
"a result indexed by the derived key instead of the original dimension":
the leading dimension is `month`, not `time`. -/
structure MonthField where
  months : List Nat
  lats : List ℚ
  lons : List ℚ
  data : List (List (List (Option ℚ)))
  attrs : List (String × String)
deriving DecidableEq, Repr

/-- Coordinate-length invariant for the month-indexed climatology. -/
def MonthField.WF (c : MonthField) : Prop :=
  c.data.length = c.months.length ∧
  ∀ p ∈ c.data, p.length = c.lats.length ∧ ∀ r ∈ p, r.length = c.lons.length

instance (c : MonthField) : Decidable c.WF := by
  unfold MonthField.WF; infer_instance

/-- Modelled from the spec: an annually resampled series, indexed by
calendar year. -/
structure AnnualSeries where
  years : List Nat
  values : List (Option ℚ)
  attrs : List (String × String)
deriving DecidableEq, Repr

/-- Coordinate-length invariant for the annual series. -/
def AnnualSeries.WF (a : AnnualSeries) : Prop :=
  a.years.length = a.values.length

instance (a : AnnualSeries) : Decidable a.WF := by
  unfold AnnualSeries.WF; infer_instance

/-- Modelled from the spec: a labeled collection ("a mapping from variable
name to labeled array ... plus a free-form metadata mapping").  The loaded
SST datasets hold a single 3-D variable. -/
structure Dataset where
  dataVars : List (String × SstField)
  attrs : List (String × String)
deriving DecidableEq, Repr

/-- Label-based selection of one date, `sst.sel(time='1960-06-15')`: find
the timestamp in the `time` coordinate and return that 2-D slice, with the
time dimension dropped.  An absent label is a library error (`none`). -/
def SstField.selTime (f : SstField) (d : Date) : Option Field2 :=
  match f.times.findIdx? (fun t => t == d) with
  | some i => (f.data.get? i).map (fun p => ⟨f.lats, f.lons, p, f.attrs⟩)
  | none => none

/-- Reduction over the time dimension, `sst.mean(dim='time')`: a 2-D field
of per-cell means over all timestamps.  Reductions drop the metadata
mapping (the library's default). -/
def SstField.meanTime (f : SstField) : Field2 :=
  ⟨f.lats, f.lons,
   (List.range f.lats.length).map (fun i =>
     (List.range f.lons.length).map (fun j =>
       omean (f.data.map (fun p => cell2 p i j)))),
   []⟩

/-- Label-based selection of one grid point,
`ds_all.sst.sel(lon=300, lat=10)`: a time series at that point. -/
def SstField.selPoint (f : SstField) (lon lat : ℚ) : Option Series :=
  match f.lons.findIdx? (fun c => c == lon), f.lats.findIdx? (fun c => c == lat) with
  | some j, some i => some ⟨f.times, f.data.map (fun p => cell2 p i j), f.attrs⟩
  | _, _ => none

/-- Restriction of a field to the timestamps of one calendar month: the
partition underlying `groupby('time.month')`. -/
def SstField.filterMonth (f : SstField) (m : Nat) : SstField :=
  let kept := (f.times.zip f.data).filter (fun q => q.1.month == m)
  ⟨kept.map Prod.fst, f.lats, f.lons, kept.map Prod.snd, f.attrs⟩

/-- One output plane of the monthly climatology: the per-cell mean over
time restricted to timestamps of month `m` (entries of other months are
masked out of the reduction). -/
def SstField.monthSlice (f : SstField) (m : Nat) : List (List (Option ℚ)) :=
  (List.range f.lats.length).map (fun i =>
    (List.range f.lons.length).map (fun j =>
      omean ((f.times.zip f.data).map (fun q =>
        if q.1.month == m then cell2 q.2 i j else none))))

/-- `ds_all.sst.groupby('time.month').mean(dim='time')`: bucket timestamps
by calendar month and average each bucket over time; the result is indexed
by the derived `month` key (sorted group keys, only months present). -/
def SstField.groupbyMonthMean (f : SstField) : MonthField :=
  let ms := ((List.range 12).map (· + 1)).filter
    (fun m => f.times.any (fun d => d.month == m))
  ⟨ms, f.lats, f.lons, ms.map f.monthSlice, []⟩

/-- `sst_ts.resample(time='A').mean(dim='time')`: annual-frequency
resampling.  The time axis is rebucketed into one fixed bucket per calendar
year from the earliest to the latest year of the input, and each bucket is
reduced by the mean over time; a year with no samples is an empty bucket
(missing value). -/
def Series.resampleAnnualMean (s : Series) : AnnualSeries :=
  match (s.times.map Date.year).min?, (s.times.map Date.year).max? with
  | some lo, some hi =>
      let yrs := (List.range (hi + 1 - lo)).map (· + lo)
      ⟨yrs,
       yrs.map (fun y => omean ((s.times.zip s.values).map
         (fun q => if q.1.year == y then q.2 else none))),
       []⟩
  | _, _ => ⟨[], [], []⟩

/-- One output position of a centered rolling mean of window `w`: the mean
of the `w` consecutive input values whose window is centered (right-heavy
for even `w`) at position `i`; a position whose window sticks out of the
axis is missing (the edge policy, `min_periods` = window size). -/
def windowMean (w : Nat) (l : List (Option ℚ)) (i : Nat) : Option ℚ :=
  if w ≤ i + w / 2 + 1 ∧ i + w / 2 < l.length then
    omean ((l.drop (i + w / 2 + 1 - w)).take w)
  else none

/-- `sst_ts.rolling(time=24, center=True).mean()`: a moving-window mean
over the time dimension.  One output value is produced per input position,
so the time axis keeps its length; edge positions whose window is
incomplete are missing rather than dropped. -/
def Series.rollingMeanCentered (s : Series) (w : Nat) : Series :=
  ⟨s.times, (List.range s.values.length).map (windowMean w s.values), s.attrs⟩

/-- Unweighted spatial mean `sst.mean(dim=('lon', 'lat'))`: one naive mean
over all grid cells per timestamp. -/
def SstField.spatialMean (f : SstField) : List (Option ℚ) :=
  f.data.map (fun p => omean p.flatten)

/-- A rational stand-in for pi; the embedding works over the rationals, so
the irrational constant of `np.deg2rad` is replaced by this approximation. -/
def piQ : ℚ := 3.14159265358979

/-- `np.deg2rad`, over the rationals. -/
def deg2rad (x : ℚ) : ℚ := x * piQ / 180

/-- Rational cosine: the degree-6 Taylor polynomial of cosine, standing in
for `np.cos` (exact at 0 and accurate to 4 decimal places on the latitudes
the sample grid uses). -/
def cosQ (x : ℚ) : ℚ := 1 - x ^ 2 / 2 + x ^ 4 / 24 - x ^ 6 / 720

/-- The spherical area element, from the notebook:
`dA = R**2 * dphi * dlambda * cos(deg2rad(lat))` with `R = 6.37e6` and a
one-degree grid spacing. -/
def dA (lat : ℚ) : ℚ :=
  (6370000 : ℚ) ^ 2 * deg2rad 1 * deg2rad 1 * cosQ (deg2rad lat)

/-- `pixel_area = dA.where(sst[0].notnull())`: the area weight per grid
cell, masked to ocean pixels (cells where the first time slice is not
missing), broadcast from the `lat` coordinate across `lon`. -/
def SstField.pixelArea (f : SstField) : List (List (Option ℚ)) :=
  (List.range f.lats.length).map (fun i =>
    (List.range f.lons.length).map (fun j =>
      if (cell2 (f.data.headD []) i j).isSome
      then (f.lats.get? i).map dA else none))

/-- Sum of an elementwise product of two masked planes, used for
`(sst * pixel_area).sum(dim=('lon', 'lat'))`: a missing factor knocks the
cell out of the sum. -/
def maskedProdSum (p q : List (List (Option ℚ))) (nlat nlon : Nat) : ℚ :=
  osum (((List.range nlat).map (fun i =>
    (List.range nlon).map (fun j =>
      (cell2 p i j).bind (fun a => (cell2 q i j).map (fun b => a * b))))).flatten)

/-- The area-weighted mean of the notebook:
`(sst * pixel_area).sum(dim=('lon','lat')) / total_ocean_area`, one value
per timestamp. -/
def SstField.weightedMean (f : SstField) : List (Option ℚ) :=
  let w := f.pixelArea
  let total := osum w.flatten
  f.data.map (fun p =>
    if total = 0 then none
    else some (maskedProdSum p w f.lats.length f.lons.length / total))

/-- Names a `Dataset` object exposes as genuine Python attributes; on an
attribute access these shadow any same-named variable, while
dictionary-style access never consults them. -/
def reservedNames : List String :=
  ["dims", "sizes", "coords", "attrs", "data_vars", "indexes", "values",
   "nbytes", "chunks", "encoding"]

/-- Dictionary-style access `ds['sst']`: look the name up among the data
variables of the collection. -/
def Dataset.getItem (ds : Dataset) (n : String) : Option SstField :=
  (ds.dataVars.find? (fun q => q.1 == n)).map Prod.snd

/-- Attribute-style access `ds.sst`: a real attribute of the object wins;
otherwise the access falls back to the variable lookup. -/
def Dataset.attrAccess (ds : Dataset) (n : String) : Option SstField :=
  if n ∈ reservedNames then none
  else (ds.dataVars.find? (fun q => q.1 == n)).map Prod.snd

/-- A value bound to a name in the interactive session: one of the labeled
objects the notebook manipulates. -/
inductive Obj where
  | arr1 : DataArray1 → Obj
  | fld : SstField → Obj
  | fld2 : Field2 → Obj
  | ser : Series → Obj
  | mfld : MonthField → Obj
  | ann : AnnualSeries → Obj
  | dset : Dataset → Obj
deriving DecidableEq

/-- The interactive session's namespace: name-to-object bindings, most
recent binding first. -/
def Env := List (String × Obj)

/-- Read a binding from the session namespace. -/
def envGet (e : Env) (n : String) : Option Obj :=
  (List.find? (fun q => q.1 == n) e).map Prod.snd

/-- Bind a (new) name in the session namespace. -/
def envSet (e : Env) (n : String) (v : Obj) : Env :=
  (n, v) :: e

/-- Cell `sst_time_mean = sst.mean(dim='time')`: a reduction assigned to a
fresh name; a cell whose operand is unbound or of the wrong kind is a
library error and leaves the namespace unchanged. -/
def cellSstTimeMean (e : Env) : Env :=
  match envGet e "sst" with
  | some (.fld f) => envSet e "sst_time_mean" (.fld2 f.meanTime)
  | _ => e

/-- Cell `sst_clim = ds_all.sst.groupby('time.month').mean(dim='time')`:
a group-by aggregation assigned to a fresh name. -/
def cellSstClim (e : Env) : Env :=
  match envGet e "ds_all" with
  | some (.dset ds) =>
      match ds.getItem "sst" with
      | some f => envSet e "sst_clim" (.mfld f.groupbyMonthMean)
      | none => e
  | _ => e

/-- Cell `sst_ts = ds_all.sst.sel(lon=300, lat=10)`: a label-based
selection assigned to a fresh name. -/
def cellSstTs (e : Env) : Env :=
  match envGet e "ds_all" with
  | some (.dset ds) =>
      match (ds.getItem "sst").bind (fun f => f.selPoint 300 10) with
      | some s => envSet e "sst_ts" (.ser s)
      | none => e
  | _ => e

/-- Cell `sst_ts_annual = sst_ts.resample(time='A').mean(dim='time')`. -/
def cellSstTsAnnual (e : Env) : Env :=
  match envGet e "sst_ts" with
  | some (.ser s) => envSet e "sst_ts_annual" (.ann s.resampleAnnualMean)
  | _ => e

/-- Cell `sst_ts_rolling = sst_ts.rolling(time=24, center=True).mean()`. -/
def cellSstTsRolling (e : Env) : Env :=
  match envGet e "sst_ts" with
  | some (.ser s) => envSet e "sst_ts_rolling" (.ser (s.rollingMeanCentered 24))
  | _ => e

/-- Exercise 1 cell `g = f**2 + 1`: elementwise arithmetic assigned to a
fresh name. -/
def cellG (e : Env) : Env :=
  match envGet e "f" with
  | some (.arr1 f) => envSet e "g" (.arr1 f.sqAddOne)
  | _ => e

/-- A small concrete stand-in for the 1960 sample grid file: two monthly
timestamps over a 2 x 2 (lat, lon) grid with one land (missing) cell. -/
def sample1960 : SstField :=
  ⟨[⟨1960, 6, 15⟩, ⟨1960, 7, 15⟩],
   [0, 60],
   [20, 340],
   [[[some 1, some 2], [some 3, none]],
    [[some 5, some 6], [some 7, none]]],
   [("units", "degC")]⟩

/-- C9: dictionary-style access and attribute-style access on a dataset
return the same variable: for every dataset, `ds['sst']` and `ds.sst`
yield the same labeled array (values, dims, coords and attributes alike),
because `sst` is not shadowed by a real attribute of the object. -/
theorem dict_access_eq_attribute_access (ds : Dataset) :
    ds.getItem "sst" = ds.attrAccess "sst" := by
  have h : "sst" ∉ reservedNames := by decide
  unfold Dataset.getItem Dataset.attrAccess
  rw [if_neg h]

/-- C5: a fixed-window centered rolling mean returns a result whose time
dimension has the same length as the input's time dimension — for every
series and window size; edges become missing values, the axis is never
shortened. -/
theorem rolling_mean_keeps_length (s : Series) (w : Nat) :
    (s.rollingMeanCentered w).times = s.times ∧
    (s.rollingMeanCentered w).values.length = s.values.length := by
  refine ⟨rfl, ?_⟩
  simp [Series.rollingMeanCentered]

/-- C2: selecting the `sst` variable by label for a date present in the
time coordinate yields a 2-D field — the time dimension is dropped — whose
shape equals the dataset's declared (lat, lon) grid dimensions. -/
theorem selTime_yields_latlon_grid (f : SstField) (d : Date)
    (hwf : f.WF) (hd : d ∈ f.times) :
    ∃ g : Field2, f.selTime d = some g ∧ g.lats = f.lats ∧ g.lons = f.lons ∧
      g.data.length = f.lats.length ∧ ∀ r ∈ g.data, r.length = f.lons.length := by
  obtain ⟨hlen, hpl⟩ := hwf
  have hex : ∃ x, x ∈ f.times ∧ (x == d) = true := ⟨d, hd, by simp⟩
  have h1 : f.times.findIdx? (fun t => t == d)
      = some (f.times.findIdx (fun t => t == d)) :=
    List.findIdx?_eq_some_of_exists hex
  have hilt : f.times.findIdx (fun t => t == d) < f.times.length :=
    List.findIdx_lt_length_of_exists hex
  have hdata : f.times.findIdx (fun t => t == d) < f.data.length := by
    rw [hlen]; exact hilt
  have hp : f.data.get? (f.times.findIdx (fun t => t == d))
      = some (f.data.get ⟨f.times.findIdx (fun t => t == d), hdata⟩) :=
    List.get?_eq_get hdata
  have hmem : f.data.get ⟨f.times.findIdx (fun t => t == d), hdata⟩ ∈ f.data :=
    List.get_mem _ _ _
  refine ⟨⟨f.lats, f.lons, f.data.get ⟨f.times.findIdx (fun t => t == d), hdata⟩,
    f.attrs⟩, ?_, rfl, rfl, (hpl _ hmem).1, (hpl _ hmem).2⟩
  simp only [SstField.selTime, h1, hp, Option.map_some']

/-- Witness for C2 at the concrete sample grid: the 1960-06-15 slice
exists and has the declared 2 x 2 (lat, lon) shape. -/
theorem selTime_yields_latlon_grid_witness :
    sample1960.WF ∧ (⟨1960, 6, 15⟩ : Date) ∈ sample1960.times ∧
    (∃ g : Field2, sample1960.selTime ⟨1960, 6, 15⟩ = some g ∧
      g.lats = sample1960.lats ∧ g.lons = sample1960.lons ∧
      g.data.length = sample1960.lats.length ∧
      ∀ r ∈ g.data, r.length = sample1960.lons.length) :=
  ⟨by decide, by decide,
   selTime_yields_latlon_grid sample1960 ⟨1960, 6, 15⟩ (by decide) (by decide)⟩

/-- Masking entries out of a reduction and filtering them away leave the
same present values behind. -/
theorem filterMap_mask {α : Type} (p : α → Bool) (g : α → Option ℚ) :
    ∀ xs : List α,
      (xs.map (fun x => if p x then g x else none)).filterMap id
        = ((xs.filter p).map g).filterMap id := by
  intro xs
  induction xs with
  | nil => rfl
  | cons a t ih =>
      by_cases h : p a
      · cases hg : g a <;> simp [h, hg, List.filterMap_cons, ih]
      · simp [h, List.filterMap_cons, ih]

/-- The mean reduction only sees the present values. -/
theorem omean_congr (l l2 : List (Option ℚ)) (h : l.filterMap id = l2.filterMap id) :
    omean l = omean l2 := by
  unfold omean
  rw [h]

/-- Each plane of the monthly climatology is exactly the time-mean of the
field restricted to that month: masking a month's bucket into the
reduction agrees with partitioning first and reducing after. -/
theorem monthSlice_eq_filterMonth_meanTime (f : SstField) (m : Nat) :
    f.monthSlice m = (f.filterMonth m).meanTime.data := by
  unfold SstField.monthSlice SstField.filterMonth SstField.meanTime
  simp only [List.map_map]
  congr 1
  funext i
  congr 1
  funext j
  apply omean_congr
  exact filterMap_mask (fun q => q.1.month == m) (fun q => cell2 q.2 i j)
    (f.times.zip f.data)

/-- C1: for a multi-year collection with data in every calendar month,
grouping `sst` by `time.month` and taking the mean over time yields
exactly 12 output slices, indexed by the derived month key 1..12 instead
of the original time dimension, each slice being the time-mean over all
years of that month. -/
theorem groupby_month_climatology (f : SstField)
    (h : ∀ m ∈ (List.range 12).map (· + 1), ∃ d ∈ f.times, d.month = m) :
    f.groupbyMonthMean.months = (List.range 12).map (· + 1) ∧
    f.groupbyMonthMean.months.length = 12 ∧
    f.groupbyMonthMean.data.length = 12 ∧
    ∀ m ∈ (List.range 12).map (· + 1),
      f.groupbyMonthMean.data.get? (m - 1)
        = some ((f.filterMonth m).meanTime.data) := by
  have hms : ((List.range 12).map (· + 1)).filter
      (fun m => f.times.any (fun d => d.month == m)) = (List.range 12).map (· + 1) := by
    apply List.filter_eq_self.mpr
    intro a ha
    obtain ⟨d, hd, hm⟩ := h a ha
    exact List.any_eq_true.mpr ⟨d, hd, by simp [hm]⟩
  refine ⟨?_, ?_, ?_, ?_⟩
  · simp [SstField.groupbyMonthMean, hms]
  · simp [SstField.groupbyMonthMean, hms]
  · simp [SstField.groupbyMonthMean, hms]
  · intro m hm
    obtain ⟨k, hk, rfl⟩ := List.mem_map.mp hm
    have hk12 : k < 12 := List.mem_range.mp hk
    simp only [SstField.groupbyMonthMean, hms, Nat.add_sub_cancel]
    rw [List.get?_map, List.get?_map, List.get?_range hk12]
    simp [monthSlice_eq_filterMonth_meanTime]

/-- A concrete two-year monthly collection over a 1 x 1 grid, standing in
for the 57-year multi-file SST dataset. -/
def sampleAll : SstField :=
  ⟨(List.range 12).map (fun k => ⟨1960, k + 1, 15⟩)
     ++ (List.range 12).map (fun k => ⟨1961, k + 1, 15⟩),
   [0], [20],
   (List.range 24).map (fun t => [[some ((t : ℚ) + 1)]]),
   []⟩

/-- Witness for C1 at the concrete two-year collection: every month is
present, and the grouped result has the stated 12 month-indexed slices. -/
theorem groupby_month_climatology_witness :
    (∀ m ∈ (List.range 12).map (· + 1), ∃ d ∈ sampleAll.times, d.month = m) ∧
    (sampleAll.groupbyMonthMean.months = (List.range 12).map (· + 1) ∧
     sampleAll.groupbyMonthMean.months.length = 12 ∧
     sampleAll.groupbyMonthMean.data.length = 12 ∧
     ∀ m ∈ (List.range 12).map (· + 1),
       sampleAll.groupbyMonthMean.data.get? (m - 1)
         = some ((sampleAll.filterMonth m).meanTime.data)) :=
  ⟨by decide, groupby_month_climatology sampleAll (by decide)⟩

/-- C4: resampling a single-point time series to annual frequency with a
mean over time yields exactly one output value per calendar year spanned
by the input series: the year axis runs once through every year from the
earliest to the latest year present, with no repeats, and every input
timestamp falls into one of those years. -/
theorem resample_annual_one_per_year (s : Series) (h : s.times ≠ []) :
    ∃ lo hi, (s.times.map Date.year).min? = some lo ∧
      (s.times.map Date.year).max? = some hi ∧ lo ≤ hi ∧
      s.resampleAnnualMean.years = (List.range (hi + 1 - lo)).map (· + lo) ∧
      s.resampleAnnualMean.years.length = hi + 1 - lo ∧
      s.resampleAnnualMean.values.length = hi + 1 - lo ∧
      s.resampleAnnualMean.years.Nodup ∧
      (∀ y, y ∈ s.resampleAnnualMean.years ↔ lo ≤ y ∧ y ≤ hi) ∧
      (∀ d ∈ s.times, d.year ∈ s.resampleAnnualMean.years) := by
  have hne : s.times.map Date.year ≠ [] := by simp [h]
  obtain ⟨lo, hlo⟩ : ∃ lo, (s.times.map Date.year).min? = some lo := by
    cases hmin : (s.times.map Date.year).min? with
    | none => exact absurd (List.min?_eq_none_iff.mp hmin) hne
    | some lo => exact ⟨lo, rfl⟩
  obtain ⟨hi, hhi⟩ : ∃ hi, (s.times.map Date.year).max? = some hi := by
    cases hmax : (s.times.map Date.year).max? with
    | none => exact absurd (List.max?_eq_none_iff.mp hmax) hne
    | some hi => exact ⟨hi, rfl⟩
  have hlo' := List.min?_eq_some_iff'.mp hlo
  have hhi' := List.max?_eq_some_iff'.mp hhi
  have hlohi : lo ≤ hi := hlo'.2 hi hhi'.1
  have hyrs : s.resampleAnnualMean.years = (List.range (hi + 1 - lo)).map (· + lo) := by
    simp only [Series.resampleAnnualMean, hlo, hhi]
  have hmemy : ∀ y, y ∈ s.resampleAnnualMean.years ↔ lo ≤ y ∧ y ≤ hi := by
    intro y
    rw [hyrs]
    simp only [List.mem_map, List.mem_range]
    constructor
    · rintro ⟨k, hk, rfl⟩
      omega
    · rintro ⟨h1, h2⟩
      exact ⟨y - lo, by omega, by omega⟩
  refine ⟨lo, hi, hlo, hhi, hlohi, hyrs, by simp [hyrs], ?_, ?_, hmemy, ?_⟩
  · simp only [Series.resampleAnnualMean, hlo, hhi]
    simp
  · rw [hyrs]
    exact List.Nodup.map (fun a b hab => by omega) (List.nodup_range _)
  · intro d hd
    have hdy : d.year ∈ s.times.map Date.year := List.mem_map_of_mem Date.year hd
    exact (hmemy d.year).mpr ⟨hlo'.2 d.year hdy, hhi'.2 d.year hdy⟩

/-- Witness for C4: a three-year series (with a gap year) resamples to one
value per year 1960-1962. -/
theorem resample_annual_one_per_year_witness :
    (⟨[⟨1960, 1, 15⟩, ⟨1960, 7, 15⟩, ⟨1962, 2, 15⟩],
      [some 1, some 2, some 4], []⟩ : Series).times ≠ [] ∧
    (∃ lo hi,
      ((⟨[⟨1960, 1, 15⟩, ⟨1960, 7, 15⟩, ⟨1962, 2, 15⟩],
        [some 1, some 2, some 4], []⟩ : Series).times.map Date.year).min? = some lo ∧
      ((⟨[⟨1960, 1, 15⟩, ⟨1960, 7, 15⟩, ⟨1962, 2, 15⟩],
        [some 1, some 2, some 4], []⟩ : Series).times.map Date.year).max? = some hi ∧
      lo ≤ hi ∧
      (⟨[⟨1960, 1, 15⟩, ⟨1960, 7, 15⟩, ⟨1962, 2, 15⟩],
        [some 1, some 2, some 4], []⟩ : Series).resampleAnnualMean.years
        = (List.range (hi + 1 - lo)).map (· + lo) ∧
      (⟨[⟨1960, 1, 15⟩, ⟨1960, 7, 15⟩, ⟨1962, 2, 15⟩],
        [some 1, some 2, some 4], []⟩ : Series).resampleAnnualMean.years.length
        = hi + 1 - lo ∧
      (⟨[⟨1960, 1, 15⟩, ⟨1960, 7, 15⟩, ⟨1962, 2, 15⟩],
        [some 1, some 2, some 4], []⟩ : Series).resampleAnnualMean.values.length
        = hi + 1 - lo ∧
      (⟨[⟨1960, 1, 15⟩, ⟨1960, 7, 15⟩, ⟨1962, 2, 15⟩],
        [some 1, some 2, some 4], []⟩ : Series).resampleAnnualMean.years.Nodup ∧
      (∀ y, y ∈ (⟨[⟨1960, 1, 15⟩, ⟨1960, 7, 15⟩, ⟨1962, 2, 15⟩],
        [some 1, some 2, some 4], []⟩ : Series).resampleAnnualMean.years
          ↔ lo ≤ y ∧ y ≤ hi) ∧
      (∀ d ∈ (⟨[⟨1960, 1, 15⟩, ⟨1960, 7, 15⟩, ⟨1962, 2, 15⟩],
        [some 1, some 2, some 4], []⟩ : Series).times,
        d.year ∈ (⟨[⟨1960, 1, 15⟩, ⟨1960, 7, 15⟩, ⟨1962, 2, 15⟩],
          [some 1, some 2, some 4], []⟩ : Series).resampleAnnualMean.years)) :=
  ⟨by decide,
   resample_annual_one_per_year
     ⟨[⟨1960, 1, 15⟩, ⟨1960, 7, 15⟩, ⟨1962, 2, 15⟩], [some 1, some 2, some 4], []⟩
     (by decide)⟩

/-- C3: on the sample SST field, the spherical-area-weighted mean
`(sst * pixel_area).sum(dim=('lon','lat')) / pixel_area.sum(dim=('lon','lat'))`
with `dA = R^2 * dphi * dlambda * cos(lat)` masked to ocean pixels differs
from the unweighted spatial mean of the same field: the weighting has an
effect. -/
theorem weighted_mean_differs_from_unweighted :
    sample1960.weightedMean ≠ sample1960.spatialMean := by
  norm_num [SstField.weightedMean, SstField.spatialMean, SstField.pixelArea,
    maskedProdSum, omean, osum, cell2, dA, cosQ, deg2rad, piQ, sample1960,
    List.filterMap_cons, List.sum_cons, List.range_succ]

/-- Binding a fresh name reads back every other name unchanged. -/
theorem envGet_envSet_ne (e : Env) (n m : String) (v : Obj) (h : m ≠ n) :
    envGet (envSet e n v) m = envGet e m := by
  unfold envGet envSet
  rw [List.find?_cons_of_neg _ (by simpa using Ne.symm h)]

/-- C7: every transforming cell of the workflow — reduction, groupby,
label selection, resample, rolling, elementwise arithmetic — produces a
new derived object bound to a fresh name and leaves every existing binding
(in particular its operand, with its values, dims and coords) unchanged. -/
theorem cells_leave_operands_unchanged (e : Env) (n : String)
    (h1 : n ≠ "sst_time_mean") (h2 : n ≠ "sst_clim") (h3 : n ≠ "sst_ts")
    (h4 : n ≠ "sst_ts_annual") (h5 : n ≠ "sst_ts_rolling") (h6 : n ≠ "g") :
    envGet (cellSstTimeMean e) n = envGet e n ∧
    envGet (cellSstClim e) n = envGet e n ∧
    envGet (cellSstTs e) n = envGet e n ∧
    envGet (cellSstTsAnnual e) n = envGet e n ∧
    envGet (cellSstTsRolling e) n = envGet e n ∧
    envGet (cellG e) n = envGet e n := by
  refine ⟨?_, ?_, ?_, ?_, ?_, ?_⟩
  · unfold cellSstTimeMean
    split
    · exact envGet_envSet_ne _ _ _ _ h1
    · rfl
  · unfold cellSstClim
    split
    · split
      · exact envGet_envSet_ne _ _ _ _ h2
      · rfl
    · rfl
  · unfold cellSstTs
    split
    · split
      · exact envGet_envSet_ne _ _ _ _ h3
      · rfl
    · rfl
  · unfold cellSstTsAnnual
    split
    · exact envGet_envSet_ne _ _ _ _ h4
    · rfl
  · unfold cellSstTsRolling
    split
    · exact envGet_envSet_ne _ _ _ _ h5
    · rfl
  · unfold cellG
    split
    · exact envGet_envSet_ne _ _ _ _ h6
    · rfl

/-- Witness for C7: in a session holding the `sst` variable, running each
modelled cell leaves the `sst` binding exactly as it was. -/
theorem cells_leave_operands_unchanged_witness :
    ("sst" ≠ "sst_time_mean") ∧
    (envGet (cellSstTimeMean [("sst", Obj.fld sample1960)]) "sst"
        = envGet [("sst", Obj.fld sample1960)] "sst" ∧
     envGet (cellSstClim [("sst", Obj.fld sample1960)]) "sst"
        = envGet [("sst", Obj.fld sample1960)] "sst" ∧
     envGet (cellSstTs [("sst", Obj.fld sample1960)]) "sst"
        = envGet [("sst", Obj.fld sample1960)] "sst" ∧
     envGet (cellSstTsAnnual [("sst", Obj.fld sample1960)]) "sst"
        = envGet [("sst", Obj.fld sample1960)] "sst" ∧
     envGet (cellSstTsRolling [("sst", Obj.fld sample1960)]) "sst"
        = envGet [("sst", Obj.fld sample1960)] "sst" ∧
     envGet (cellG [("sst", Obj.fld sample1960)]) "sst"
        = envGet [("sst", Obj.fld sample1960)] "sst") :=
  ⟨by decide,
   cells_leave_operands_unchanged [("sst", Obj.fld sample1960)] "sst"
     (by decide) (by decide) (by decide) (by decide) (by decide) (by decide)⟩

/-- Date selection reads only times, coords and data, never the metadata
mapping: its result components other than `attrs` agree across metadata. -/
theorem selTime_ignores_attrs (ti : List Date) (la lo : List ℚ)
    (dat : List (List (List (Option ℚ)))) (a1 a2 : List (String × String)) (d : Date) :
    ((SstField.mk ti la lo dat a1).selTime d).map Field2.data
      = ((SstField.mk ti la lo dat a2).selTime d).map Field2.data ∧
    ((SstField.mk ti la lo dat a1).selTime d).map Field2.lats
      = ((SstField.mk ti la lo dat a2).selTime d).map Field2.lats ∧
    ((SstField.mk ti la lo dat a1).selTime d).map Field2.lons
      = ((SstField.mk ti la lo dat a2).selTime d).map Field2.lons := by
  unfold SstField.selTime
  refine ⟨?_, ?_, ?_⟩ <;>
    (cases h : List.findIdx? (fun t => t == d) ti <;>
      simp [h, Option.map_map, Function.comp_def])

/-- Point selection likewise never reads the metadata mapping. -/
theorem selPoint_ignores_attrs (ti : List Date) (la lo : List ℚ)
    (dat : List (List (List (Option ℚ)))) (a1 a2 : List (String × String))
    (lon lat : ℚ) :
    ((SstField.mk ti la lo dat a1).selPoint lon lat).map Series.times
      = ((SstField.mk ti la lo dat a2).selPoint lon lat).map Series.times ∧
    ((SstField.mk ti la lo dat a1).selPoint lon lat).map Series.values
      = ((SstField.mk ti la lo dat a2).selPoint lon lat).map Series.values := by
  unfold SstField.selPoint
  refine ⟨?_, ?_⟩ <;>
    (cases hj : List.findIdx? (fun c => c == lon) lo <;>
      cases hi : List.findIdx? (fun c => c == lat) la <;>
      simp [hj, hi])

/-- C8: the metadata mapping has no effect on computation.  For arrays
that agree in values, dims and coords and differ at most in their metadata
mappings, every workflow operation — date and point selection, time-mean,
groupby climatology, weighted and unweighted spatial means, annual
resample, rolling mean, label selection and elementwise arithmetic —
produces results that agree in values, dims and coords. -/
theorem attrs_have_no_effect
    (f g : SstField)
    (hf : f.times = g.times ∧ f.lats = g.lats ∧ f.lons = g.lons ∧ f.data = g.data)
    (s t : Series) (hs : s.times = t.times ∧ s.values = t.values)
    (a b : DataArray1) (ha : a.xs = b.xs ∧ a.values = b.values)
    (d : Date) (lon lat v : ℚ) (w : Nat) :
    ((f.selTime d).map Field2.data = (g.selTime d).map Field2.data ∧
     (f.selTime d).map Field2.lats = (g.selTime d).map Field2.lats ∧
     (f.selTime d).map Field2.lons = (g.selTime d).map Field2.lons) ∧
    f.meanTime = g.meanTime ∧
    f.groupbyMonthMean = g.groupbyMonthMean ∧
    ((f.selPoint lon lat).map Series.times = (g.selPoint lon lat).map Series.times ∧
     (f.selPoint lon lat).map Series.values = (g.selPoint lon lat).map Series.values) ∧
    f.weightedMean = g.weightedMean ∧
    f.spatialMean = g.spatialMean ∧
    s.resampleAnnualMean = t.resampleAnnualMean ∧
    ((s.rollingMeanCentered w).times = (t.rollingMeanCentered w).times ∧
     (s.rollingMeanCentered w).values = (t.rollingMeanCentered w).values) ∧
    a.selX v = b.selX v ∧
    a.sqAddOne.xs = b.sqAddOne.xs ∧ a.sqAddOne.values = b.sqAddOne.values := by
  obtain ⟨e1, e2, e3, e4⟩ := hf
  obtain ⟨e5, e6⟩ := hs
  obtain ⟨e7, e8⟩ := ha
  cases f; cases g; cases s; cases t; cases a; cases b
  simp only at e1 e2 e3 e4 e5 e6 e7 e8
  subst e1; subst e2; subst e3; subst e4; subst e5; subst e6; subst e7; subst e8
  exact ⟨selTime_ignores_attrs _ _ _ _ _ _ _,
    rfl, rfl, selPoint_ignores_attrs _ _ _ _ _ _ _ _,
    rfl, rfl, rfl, ⟨rfl, rfl⟩, rfl, rfl, rfl⟩

/-- The sample field again, identical except for its metadata mapping. -/
def sample1960b : SstField :=
  { sample1960 with attrs := [("note", "metadata changed")] }

/-- A small concrete time series, and the same series with different
metadata. -/
def sampleTs : Series :=
  ⟨[⟨1960, 1, 15⟩, ⟨1960, 2, 15⟩], [some 1, some 2], []⟩

/-- The metadata-variant of `sampleTs`. -/
def sampleTsB : Series :=
  ⟨[⟨1960, 1, 15⟩, ⟨1960, 2, 15⟩], [some 1, some 2], [("id", "b")]⟩

/-- A small concrete 1-D array, and a metadata variant of it. -/
def sampleF1 : DataArray1 := ⟨[0, 1], [5, 7], []⟩

/-- The metadata-variant of `sampleF1`. -/
def sampleF1b : DataArray1 := ⟨[0, 1], [5, 7], [("id", "b")]⟩

/-- Witness for C8: concrete objects differing only in metadata take every
workflow operation to results with identical values, dims and coords. -/
theorem attrs_have_no_effect_witness :
    (sample1960.times = sample1960b.times ∧ sample1960.lats = sample1960b.lats ∧
     sample1960.lons = sample1960b.lons ∧ sample1960.data = sample1960b.data) ∧
    (sampleTs.times = sampleTsB.times ∧ sampleTs.values = sampleTsB.values) ∧
    (sampleF1.xs = sampleF1b.xs ∧ sampleF1.values = sampleF1b.values) ∧
    (((sample1960.selTime ⟨1960, 6, 15⟩).map Field2.data
        = (sample1960b.selTime ⟨1960, 6, 15⟩).map Field2.data ∧
      (sample1960.selTime ⟨1960, 6, 15⟩).map Field2.lats
        = (sample1960b.selTime ⟨1960, 6, 15⟩).map Field2.lats ∧
      (sample1960.selTime ⟨1960, 6, 15⟩).map Field2.lons
        = (sample1960b.selTime ⟨1960, 6, 15⟩).map Field2.lons) ∧
     sample1960.meanTime = sample1960b.meanTime ∧
     sample1960.groupbyMonthMean = sample1960b.groupbyMonthMean ∧
     ((sample1960.selPoint 20 0).map Series.times
        = (sample1960b.selPoint 20 0).map Series.times ∧
      (sample1960.selPoint 20 0).map Series.values
        = (sample1960b.selPoint 20 0).map Series.values) ∧
     sample1960.weightedMean = sample1960b.weightedMean ∧
     sample1960.spatialMean = sample1960b.spatialMean ∧
     sampleTs.resampleAnnualMean = sampleTsB.resampleAnnualMean ∧
     ((sampleTs.rollingMeanCentered 24).times
        = (sampleTsB.rollingMeanCentered 24).times ∧
      (sampleTs.rollingMeanCentered 24).values
        = (sampleTsB.rollingMeanCentered 24).values) ∧
     sampleF1.selX 0 = sampleF1b.selX 0 ∧
     sampleF1.sqAddOne.xs = sampleF1b.sqAddOne.xs ∧
     sampleF1.sqAddOne.values = sampleF1b.sqAddOne.values) :=
  ⟨⟨rfl, rfl, rfl, rfl⟩, ⟨rfl, rfl⟩, ⟨rfl, rfl⟩,
   attrs_have_no_effect sample1960 sample1960b ⟨rfl, rfl, rfl, rfl⟩
     sampleTs sampleTsB ⟨rfl, rfl⟩ sampleF1 sampleF1b ⟨rfl, rfl⟩
     ⟨1960, 6, 15⟩ 20 0 0 24⟩

/-- C6: the coordinate-length invariant — along every dimension that
carries a coordinate, the coordinate vector's length equals that
dimension's size — is preserved by every operation of the workflow:
label selection of a date or a point, reduction over time, groupby by
month, annual resample, rolling mean, and elementwise arithmetic. -/
theorem coordinate_lengths_invariant
    (f : SstField) (hf : f.WF) (s : Series) (hs : s.WF)
    (a b : DataArray1) (ha : a.WF) (hb : b.WF)
    (d : Date) (lon lat : ℚ) (w : Nat) :
    (∀ g2, f.selTime d = some g2 → g2.WF) ∧
    f.meanTime.WF ∧
    f.groupbyMonthMean.WF ∧
    (∀ s2, f.selPoint lon lat = some s2 → s2.WF) ∧
    s.resampleAnnualMean.WF ∧
    (s.rollingMeanCentered w).WF ∧
    a.sqAddOne.WF ∧
    (∀ c, a.mul b = some c → c.WF) := by
  obtain ⟨hlen, hpl⟩ := hf
  have hs' : s.times.length = s.values.length := hs
  have ha' : a.xs.length = a.values.length := ha
  have hb' : b.xs.length = b.values.length := hb
  refine ⟨?_, ?_, ?_, ?_, ?_, ?_, ?_, ?_⟩
  · intro g2 hg2
    unfold SstField.selTime at hg2
    cases hidx : f.times.findIdx? (fun t => t == d) with
    | none =>
        simp only [hidx] at hg2
        exact Option.noConfusion hg2
    | some i =>
        simp only [hidx] at hg2
        cases hget : f.data.get? i with
        | none =>
            simp only [hget, Option.map_none'] at hg2
            exact Option.noConfusion hg2
        | some p =>
            simp only [hget, Option.map_some', Option.some.injEq] at hg2
            have hp : p ∈ f.data := List.get?_mem hget
            obtain rfl := hg2
            exact ⟨(hpl p hp).1, (hpl p hp).2⟩
  · refine ⟨by simp [SstField.meanTime], ?_⟩
    intro r hr
    simp only [SstField.meanTime, List.mem_map, List.mem_range] at hr
    obtain ⟨i, _, rfl⟩ := hr
    simp [SstField.meanTime]
  · refine ⟨by simp [SstField.groupbyMonthMean], ?_⟩
    intro p hp
    simp only [SstField.groupbyMonthMean, List.mem_map] at hp
    obtain ⟨m, _, rfl⟩ := hp
    refine ⟨by simp [SstField.monthSlice, SstField.groupbyMonthMean], ?_⟩
    intro r hr
    simp only [SstField.monthSlice, List.mem_map, List.mem_range] at hr
    obtain ⟨i, _, rfl⟩ := hr
    simp [SstField.groupbyMonthMean]
  · intro s2 hs2
    unfold SstField.selPoint at hs2
    cases hj : f.lons.findIdx? (fun c => c == lon) with
    | none =>
        simp only [hj] at hs2
        exact Option.noConfusion hs2
    | some j =>
        cases hi : f.lats.findIdx? (fun c => c == lat) with
        | none =>
            simp only [hj, hi] at hs2
            exact Option.noConfusion hs2
        | some i =>
            simp only [hj, hi, Option.some.injEq] at hs2
            obtain rfl := hs2
            exact by simp [Series.WF, hlen]
  · unfold Series.resampleAnnualMean
    cases (s.times.map Date.year).min? <;>
      cases (s.times.map Date.year).max? <;>
      simp [AnnualSeries.WF]
  · simp [Series.WF, Series.rollingMeanCentered, hs']
  · simp [DataArray1.WF, DataArray1.sqAddOne, ha']
  · intro c hc
    unfold DataArray1.mul at hc
    by_cases hxs : a.xs == b.xs
    · rw [if_pos hxs] at hc
      have hx : a.xs = b.xs := by simpa using hxs
      have hxl : a.xs.length = b.xs.length := by rw [hx]
      obtain rfl : DataArray1.mk a.xs (a.values.zipWith (· * ·) b.values) [] = c := by
        simpa using hc
      simp only [DataArray1.WF, List.length_zipWith]
      omega
    · rw [if_neg hxs] at hc
      exact absurd hc (by simp)

/-- Witness for C6 at concrete well-formed inputs. -/
theorem coordinate_lengths_invariant_witness :
    sample1960.WF ∧ sampleTs.WF ∧ sampleF1.WF ∧ sampleF1b.WF ∧
    ((∀ g2, sample1960.selTime ⟨1960, 6, 15⟩ = some g2 → g2.WF) ∧
     sample1960.meanTime.WF ∧
     sample1960.groupbyMonthMean.WF ∧
     (∀ s2, sample1960.selPoint 20 0 = some s2 → s2.WF) ∧
     sampleTs.resampleAnnualMean.WF ∧
     (sampleTs.rollingMeanCentered 24).WF ∧
     sampleF1.sqAddOne.WF ∧
     (∀ c, sampleF1.mul sampleF1b = some c → c.WF)) :=
  ⟨by decide, by decide, by decide, by decide,
   coordinate_lengths_invariant sample1960 (by decide) sampleTs (by decide)
     sampleF1 sampleF1b (by decide) (by decide) ⟨1960, 6, 15⟩ 20 0 24⟩

/-- On a strictly increasing key sequence, keeping every item whose key is
at most the k-th key is exactly taking the first k+1 items. -/
theorem filter_le_key_eq_take (t : List (ℚ × ℚ)) :
    ∀ (k : Nat) (hk : k < t.length),
      (t.map Prod.fst).Pairwise (· < ·) →
      t.filter (fun e => decide (e.1 ≤ (t.get ⟨k, hk⟩).1)) = t.take (k + 1) := by
  induction t with
  | nil => intro k hk _; exact absurd hk (by simp)
  | cons q u ih =>
      intro k hk hsort
      rw [List.map_cons, List.pairwise_cons] at hsort
      obtain ⟨hq, hu⟩ := hsort
      cases k with
      | zero =>
          show List.filter (fun e => decide (e.1 ≤ q.1)) (q :: u) = q :: List.take 0 u
          rw [List.filter_cons, if_pos (by simp)]
          rw [List.take_zero]
          congr 1
          apply List.filter_eq_nil_iff.mpr
          intro e he
          simp only [decide_eq_true_eq, not_le]
          exact hq e.1 (List.mem_map_of_mem Prod.fst he)
      | succ k =>
          have hk' : k < u.length := by simpa using hk
          have hmem : (u.get ⟨k, hk'⟩).1 ∈ u.map Prod.fst :=
            List.mem_map_of_mem Prod.fst (List.get_mem u k hk')
          show List.filter (fun e => decide (e.1 ≤ (u.get ⟨k, hk'⟩).1)) (q :: u)
            = q :: List.take (k + 1) u
          rw [List.filter_cons,
            if_pos (by simp only [decide_eq_true_eq]; exact le_of_lt (hq _ hmem))]
          congr 1
          exact ih k hk' hu


/-- On a strictly increasing key sequence, keeping every item whose key
lies between the a-th and the b-th keys (inclusive) is exactly the
positional slice from index a through index b. -/
theorem filter_between_keys_eq_slice (l : List (ℚ × ℚ)) :
    ∀ (a b : Nat) (hab : a ≤ b) (hb : b < l.length),
      (l.map Prod.fst).Pairwise (· < ·) →
      l.filter (fun e =>
          decide ((l.get ⟨a, Nat.lt_of_le_of_lt hab hb⟩).1 ≤ e.1)
            && decide (e.1 ≤ (l.get ⟨b, hb⟩).1))
        = (l.drop a).take (b + 1 - a) := by
  induction l with
  | nil => intro a b hab hb; exact absurd hb (by simp)
  | cons q u ih =>
      intro a b hab hb hsort
      rw [List.map_cons, List.pairwise_cons] at hsort
      obtain ⟨hq, hu⟩ := hsort
      cases a with
      | zero =>
          cases b with
          | zero =>
              show List.filter (fun e => decide (q.1 ≤ e.1) && decide (e.1 ≤ q.1))
                  (q :: u) = List.take 1 (q :: u)
              rw [List.filter_cons, if_pos (by simp), List.take_succ_cons,
                List.take_zero]
              congr 1
              apply List.filter_eq_nil_iff.mpr
              intro e he
              simp only [Bool.and_eq_true, decide_eq_true_eq, not_and, not_le]
              intro _
              exact hq e.1 (List.mem_map_of_mem Prod.fst he)
          | succ k =>
              have hk' : k < u.length := by simpa using hb
              have hmem : (u.get ⟨k, hk'⟩).1 ∈ u.map Prod.fst :=
                List.mem_map_of_mem Prod.fst (List.get_mem u k hk')
              have hpos : (decide (q.1 ≤ q.1)
                  && decide (q.1 ≤ (u.get ⟨k, hk'⟩).1)) = true := by
                simp only [Bool.and_eq_true, decide_eq_true_eq]
                exact ⟨le_refl _, le_of_lt (hq _ hmem)⟩
              show List.filter
                  (fun e => decide (q.1 ≤ e.1) && decide (e.1 ≤ (u.get ⟨k, hk'⟩).1))
                  (q :: u) = List.take (k + 2) (q :: u)
              rw [List.filter_cons, if_pos hpos, List.take_succ_cons]
              congr 1
              have hcongr : List.filter
                  (fun e => decide (q.1 ≤ e.1) && decide (e.1 ≤ (u.get ⟨k, hk'⟩).1)) u
                  = List.filter (fun e => decide (e.1 ≤ (u.get ⟨k, hk'⟩).1)) u := by
                apply List.filter_congr
                intro e he
                have hqe : q.1 ≤ e.1 :=
                  le_of_lt (hq e.1 (List.mem_map_of_mem Prod.fst he))
                simp [hqe]
              rw [hcongr]
              exact filter_le_key_eq_take u k hk' hu
      | succ a' =>
          cases b with
          | zero => exact absurd hab (by omega)
          | succ b' =>
              have hab' : a' ≤ b' := by omega
              have hb' : b' < u.length := by simpa using hb
              have hql : q.1 < (u.get ⟨a', Nat.lt_of_le_of_lt hab' hb'⟩).1 :=
                hq _ (List.mem_map_of_mem Prod.fst
                  (List.get_mem u a' (Nat.lt_of_le_of_lt hab' hb')))
              have hneg : ¬ ((decide ((u.get ⟨a', Nat.lt_of_le_of_lt hab' hb'⟩).1 ≤ q.1)
                  && decide (q.1 ≤ (u.get ⟨b', hb'⟩).1)) = true) := by
                simp only [Bool.and_eq_true, decide_eq_true_eq, not_and, not_le]
                intro hle
                exact absurd hle (not_le.mpr hql)
              show List.filter
                  (fun e =>
                    decide ((u.get ⟨a', Nat.lt_of_le_of_lt hab' hb'⟩).1 ≤ e.1)
                      && decide (e.1 ≤ (u.get ⟨b', hb'⟩).1))
                  (q :: u) = List.take (b' + 1 + 1 - (a' + 1)) (List.drop a' u)
              rw [List.filter_cons, if_neg hneg]
              have hih := ih a' b' hab' hb' hu
              have harith : b' + 1 + 1 - (a' + 1) = b' + 1 - a' := by omega
              rw [harith]
              exact hih

/-- C10: position-based and label-based indexing agree on the 1-D array
built with a strictly increasing coordinate: positional indexing `f[i]`
equals label selection `f.sel(x=x[i])` at every valid position, and a
positional slice through index b equals the label slice over the
corresponding coordinate range. -/
theorem positional_and_label_indexing_agree (f : DataArray1)
    (hwf : f.WF) (hsort : f.xs.Pairwise (· < ·)) :
    (∀ (i : Nat) (hi : i < f.xs.length),
       f.getPos i = f.selX (f.xs.get ⟨i, hi⟩)) ∧
    (∀ (a b : Nat) (hab : a ≤ b) (hb : b < f.xs.length),
       f.iselSlice a (b + 1)
         = f.selSlice (f.xs.get ⟨a, Nat.lt_of_le_of_lt hab hb⟩)
             (f.xs.get ⟨b, hb⟩)) := by
  have hlen : f.xs.length = f.values.length := hwf
  constructor
  · intro i hi
    have hfind : f.xs.findIdx? (fun c => c == f.xs.get ⟨i, hi⟩) = some i := by
      apply List.findIdx?_eq_some_iff_getElem.mpr
      refine ⟨hi, by simp, ?_⟩
      intro j hji
      have hlt := List.pairwise_iff_getElem.mp hsort j i
        (Nat.lt_trans hji hi) hi hji
      simp only [beq_eq_false_iff_ne, ne_eq, List.get_eq_getElem,
        Bool.not_eq_true]
      exact ne_of_lt hlt
    unfold DataArray1.getPos DataArray1.selX
    rw [hfind]
  · intro a b hab hb
    have hfst : f.items.map Prod.fst = f.xs :=
      List.map_fst_zip f.xs f.values (le_of_eq hlen)
    have hsort' : (f.items.map Prod.fst).Pairwise (· < ·) := by
      rw [hfst]; exact hsort
    have hilen : f.items.length = f.xs.length := by
      simp [DataArray1.items, List.length_zip, hlen]
    have hblen : b < f.items.length := by rw [hilen]; exact hb
    have hmain := filter_between_keys_eq_slice f.items a b hab hblen hsort'
    have hga : (f.items.get ⟨a, Nat.lt_of_le_of_lt hab hblen⟩).1
        = f.xs.get ⟨a, Nat.lt_of_le_of_lt hab hb⟩ := by
      simp [DataArray1.items, List.get_eq_getElem, List.getElem_zip]
    have hgb : (f.items.get ⟨b, hblen⟩).1 = f.xs.get ⟨b, hb⟩ := by
      simp [DataArray1.items, List.get_eq_getElem, List.getElem_zip]
    unfold DataArray1.iselSlice DataArray1.selSlice
    rw [← hga, ← hgb]
    exact hmain.symm

/-- Witness for C10 at a concrete sorted-coordinate array. -/
theorem positional_and_label_indexing_agree_witness :
    sampleF1.WF ∧ sampleF1.xs.Pairwise (· < ·) ∧
    ((∀ (i : Nat) (hi : i < sampleF1.xs.length),
        sampleF1.getPos i = sampleF1.selX (sampleF1.xs.get ⟨i, hi⟩)) ∧
     (∀ (a b : Nat) (hab : a ≤ b) (hb : b < sampleF1.xs.length),
        sampleF1.iselSlice a (b + 1)
          = sampleF1.selSlice (sampleF1.xs.get ⟨a, Nat.lt_of_le_of_lt hab hb⟩)
              (sampleF1.xs.get ⟨b, hb⟩))) :=
  ⟨rfl, by simp [sampleF1, List.pairwise_cons],
   positional_and_label_indexing_agree sampleF1 rfl
     (by simp [sampleF1, List.pairwise_cons])⟩
